import Mathlib

/-!
Verification development for the opencode-sync plugin.

The embedding mirrors the TypeScript sources:
* `src/sync/commit.ts` — the commit-message generator (`generateCommitMessage`,
  `sanitizeMessage`, `extractMessage`, `resolveSmallModel`, `getDiffSummary`,
  `formatDate`).  JavaScript strings are embedded as `List Char` so that
  character-level operations (split, trim, slice) are explicit.
* `src/sync/service.ts` — the sync orchestrator (`pull`, `push`, `runStartup`,
  `startupSync`, `init`, `enableSecrets`).  Each external capability call is
  resolved through an explicit environment record, and every externally visible
  write is recorded in an effect trace.
* `src/sync/paths.ts` is not part of the sources; its operations
  (`buildSyncPlan`, `resolveSyncLocations`, `resolveRepoRoot`) are modelled
  from the specification and the unit tests, as marked on each definition.
-/

namespace OpencodeSync

/-! ### Character-list strings for the commit-message model -/

/-- Shorthand turning a Lean string literal into the `List Char` representation
used by the JavaScript string model. -/
def str (s : String) : List Char := s.data

/-- Whitespace predicate used by the model of `String.prototype.trim`
(space, tab, newline, carriage return). -/
def isJsWhitespace (c : Char) : Bool :=
  c = ' ' || c = Char.ofNat 9 || c = Char.ofNat 10 || c = Char.ofNat 13

/-- Quote characters stripped by `sanitizeMessage`: double quote (34),
single quote (39) and backtick (96), matching the regex character class in
`commit.ts` line 81. -/
def isQuoteChar (c : Char) : Bool :=
  c.toNat = 34 || c.toNat = 39 || c.toNat = 96

/-- Drop the longest run of characters satisfying `p` from the right end. -/
def dropRightWhile (p : Char → Bool) (cs : List Char) : List Char :=
  (cs.reverse.dropWhile p).reverse

/-- Model of `String.prototype.trim`: remove leading and trailing whitespace. -/
def jsTrim (cs : List Char) : List Char :=
  dropRightWhile isJsWhitespace (cs.dropWhile isJsWhitespace)

/-- Model of `sanitizeMessage` (commit.ts lines 79-85): take the first line,
trim it, strip a leading and a trailing run of quote characters, trim again;
empty result stays empty; otherwise truncate to 72 characters and trim. -/
def sanitizeMessage (message : List Char) : List Char :=
  let firstLine := jsTrim (message.takeWhile (fun c => c ≠ Char.ofNat 10))
  let trimmed := jsTrim (dropRightWhile isQuoteChar (firstLine.dropWhile isQuoteChar))
  if trimmed = [] then []
  else if trimmed.length ≤ 72 then trimmed
  else jsTrim (trimmed.take 72)

/-- One part of a prompt response, as inspected by `extractMessage`
(commit.ts lines 67-77). -/
structure MsgPart where
  type : List Char
  text : Option (List Char)
deriving DecidableEq

/-- JavaScript truthiness of `part.text`: defined and non-empty. -/
def MsgPart.textTruthy (p : MsgPart) : Bool :=
  match p.text with
  | some t => t ≠ []
  | none => false

/-- Model of `extractMessage` (commit.ts lines 67-77): find the first part of
type `text` with truthy text and return its trimmed text. -/
def extractMessage (parts : List MsgPart) : Option (List Char) :=
  match parts.find? (fun p => p.type = str "text" && p.textTruthy) with
  | some p =>
    match p.text with
    | some t => some (jsTrim t)
    | none => none
  | none => none

/-- A resolved `providerID/modelID` pair (commit.ts lines 87-104). -/
structure ModelRef where
  providerID : String
  modelID : String
deriving DecidableEq

/-- Model of `String.prototype.split` with a single-character separator:
`splitOnChar s cs` is the list of chunks of `cs` between occurrences of
`s`. -/
def splitOnChar (sep : Char) : List Char → List (List Char)
  | [] => [[]]
  | c :: rest =>
    if c = sep then [] :: splitOnChar sep rest
    else
      match splitOnChar sep rest with
      | h :: t => (c :: h) :: t
      | [] => [[c]]

/-- Shape of the configuration returned by `client.config.get()` as read by
`resolveSmallModel`. -/
structure OcConfig where
  small_model : Option String
  model : Option String
deriving DecidableEq

/-- A calendar date as exposed by the JavaScript `Date` accessors used in
`formatDate`: `getFullYear`, `getMonth` (zero-based) and `getDate`. -/
structure JSDate where
  fullYear : Nat
  monthIndex : Nat
  dayOfMonth : Nat
deriving DecidableEq

/-- Model of `String(n).padStart(2, '0')` for the month and day fields. -/
def pad2 (n : Nat) : List Char :=
  if n < 10 then str "0" ++ (toString n).data else (toString n).data

/-- Model of `formatDate` (commit.ts lines 116-121): `YYYY-MM-DD` with the
month taken as `getMonth() + 1`. -/
def formatDate (date : JSDate) : List Char :=
  (toString date.fullYear).data ++ str "-" ++ pad2 (date.monthIndex + 1)
    ++ str "-" ++ pad2 date.dayOfMonth

/-- The deterministic fallback commit message (commit.ts line 16). -/
def fallbackMessage (date : JSDate) : List Char :=
  str "Sync OpenCode config (" ++ formatDate date ++ str ")"

/-- Environment resolving every external call made by the commit-message
generator.  `none` on an `Option` field models the call throwing. -/
structure CommitEnv where
  /-- Output of `git diff --name-status`; `none` models the command throwing. -/
  nameStatus : Option (List Char)
  /-- Output of `git diff --stat`; `none` models the command throwing. -/
  stat : Option (List Char)
  /-- Result of `client.config.get()`: `none` = throws, `some none` =
  unwrapped to null, `some (some cfg)` = the configuration document. -/
  configGet : Option (Option OcConfig)
  /-- Result of `client.session.create`: `none` = throws, `some none` = no id
  in the response, `some (some id)` = the created session id. -/
  sessionCreate : Option (Option String)
  /-- Parts of the prompt response after unwrapping; `none` models
  `client.session.prompt` throwing. -/
  promptParts : Option (List MsgPart)
  /-- Whether `client.session.delete` succeeds. -/
  deleteOk : Bool
deriving DecidableEq

/-- Model of `getDiffSummary` (commit.ts lines 106-114): join the trimmed
non-empty outputs with a newline; any git failure yields the empty summary. -/
def getDiffSummary (env : CommitEnv) : List Char :=
  match env.nameStatus, env.stat with
  | some ns, some st =>
    List.intercalate (str "\n") (([jsTrim ns, jsTrim st]).filter (fun l => l ≠ []))
  | _, _ => []

/-- Model of `resolveSmallModel` (commit.ts lines 87-104): read
`small_model ?? model` from the configuration, require it truthy, and split it
as `providerID/modelID` requiring both components truthy. -/
def resolveSmallModel (env : CommitEnv) : Option ModelRef :=
  match env.configGet with
  | some (some cfg) =>
    let modelValue := match cfg.small_model with
      | some v => some v
      | none => cfg.model
    match modelValue with
    | none => none
    | some mv =>
      if mv = "" then none
      else
        match splitOnChar (Char.ofNat 47) mv.data with
        | providerID :: modelID :: _ =>
          if providerID = [] || modelID = [] then none
          else some { providerID := String.mk providerID,
                      modelID := String.mk modelID }
        | _ => none
  | _ => none

/-- Observable session events of one `generateCommitMessage` run. -/
inductive CEvent
  | sessionCreated (id : String)
  | sessionDelete (id : String) (ok : Bool)
deriving DecidableEq

/-- Model of `generateCommitMessage` (commit.ts lines 11-65).  The function is
total toward its caller: every failure of an external call degrades to the
fallback message.  The second component records the session lifecycle: the
`finally` block deletes the session exactly when an id was obtained, and the
outcome of the delete call (`env.deleteOk`) never influences the returned
message. -/
def generateCommitMessage (env : CommitEnv) (fallbackDate : JSDate) :
    List Char × List CEvent :=
  let fallback := fallbackMessage fallbackDate
  if getDiffSummary env = [] then (fallback, [])
  else
    match resolveSmallModel env with
    | none => (fallback, [])
    | some _ =>
      match env.sessionCreate with
      | none => (fallback, [])
      | some none => (fallback, [])
      | some (some sessionId) =>
        if sessionId = "" then (fallback, [])
        else
          let result :=
            match env.promptParts with
            | none => fallback
            | some parts =>
              match extractMessage parts with
              | none => fallback
              | some message =>
                if message = [] then fallback
                else
                  let sanitized := sanitizeMessage message
                  if sanitized = [] then fallback else sanitized
          (result,
           [CEvent.sessionCreated sessionId,
            CEvent.sessionDelete sessionId env.deleteOk])

/-! ### Sync configuration, locations and the sync plan -/

/-- Repository identity of a sync config: `{owner, name}` or a direct URL,
each with an optional configured branch (spec §3, service.ts lines 312-329). -/
inductive RepoRef
  | ownerName (owner name : String) (branch : Option String)
  | url (u : String) (branch : Option String)
deriving DecidableEq

/-- Configured branch carried by the repository identity. -/
def RepoRef.branch : RepoRef → Option String
  | .ownerName _ _ b => b
  | .url _ b => b

/-- The persisted sync configuration (spec §3, paths.test.ts lines 46-50). -/
structure SyncConfig where
  repo : Option RepoRef
  includeSecrets : Bool
  extraSecretPaths : List String
  localRepoPath : Option String
deriving DecidableEq

/-- Modelled from the spec: `config.ts` is not under `src/`.
`normalizeSyncConfig` keeps the configuration shape unchanged (spec §3 gives no
normalisation beyond defaulting, which `buildConfigFromInit` already does). -/
def normalizeSyncConfig (c : SyncConfig) : SyncConfig := c

/-- The resolved well-known locations (spec §3, paths.test.ts lines 28-40). -/
structure SyncLocations where
  configRoot : String
  dataDir : String
  syncConfigPath : String
  overridesPath : String
  statePath : String
  defaultRepoRoot : String
deriving DecidableEq

/-- The environment variables the location resolver reads
(paths.test.ts lines 7-39; only the linux shape is modelled). -/
structure EnvVars where
  home : String
  opencodeConfigDir : Option String
deriving DecidableEq

/-- Modelled from the spec: `paths.ts` is not under `src/`.  Linux XDG
defaults per paths.test.ts lines 7-13: config under `~/.config`, data under
`~/.local/share`. -/
structure XdgPaths where
  configDir : String
  dataDir : String
deriving DecidableEq

/-- Modelled from the spec: `paths.ts` is not under `src/`.  Resolves the XDG
roots from the environment (paths.test.ts lines 7-13). -/
def resolveXdgPaths (env : EnvVars) : XdgPaths :=
  { configDir := env.home ++ "/.config", dataDir := env.home ++ "/.local/share" }

/-- Modelled from the spec: `paths.ts` is not under `src/`.  Pure function of
environment and platform (spec §3); `OPENCODE_CONFIG_DIR` overrides the config
root and the well-known file names follow paths.test.ts lines 36-39. -/
def resolveSyncLocations (env : EnvVars) : SyncLocations :=
  let xdg := resolveXdgPaths env
  let configRoot :=
    match env.opencodeConfigDir with
    | some dir => if dir = "" then xdg.configDir ++ "/opencode" else dir
    | none => xdg.configDir ++ "/opencode"
  { configRoot := configRoot
    dataDir := xdg.dataDir ++ "/opencode"
    syncConfigPath := configRoot ++ "/opencode-sync.jsonc"
    overridesPath := configRoot ++ "/opencode-sync.overrides.jsonc"
    statePath := configRoot ++ "/opencode-sync.state.json"
    defaultRepoRoot := xdg.dataDir ++ "/opencode/opencode-sync-repo" }

/-- One mapping of the sync plan (spec §3). -/
structure SyncItem where
  sourcePath : String
  repoRelativePath : String
  isSecret : Bool
deriving DecidableEq

/-- The extra-secrets allowlist of a plan (spec §3). -/
structure ExtraSecrets where
  allowlist : List String
deriving DecidableEq

/-- A sync plan: ordered items plus the extra-secrets allowlist (spec §3). -/
structure SyncPlan where
  items : List SyncItem
  extraSecrets : ExtraSecrets
deriving DecidableEq

/-- Modelled from the spec: `paths.ts` is not under `src/`.  The fixed catalog
of well-known regular paths (spec §4.1: top-level config file plus
agent/command/mode/tool/theme/plugin directories), never secret. -/
def regularCatalog (l : SyncLocations) : List SyncItem :=
  [ { sourcePath := l.configRoot ++ "/opencode.jsonc",
      repoRelativePath := "opencode.jsonc", isSecret := false },
    { sourcePath := l.configRoot ++ "/agent", repoRelativePath := "agent", isSecret := false },
    { sourcePath := l.configRoot ++ "/command", repoRelativePath := "command", isSecret := false },
    { sourcePath := l.configRoot ++ "/mode", repoRelativePath := "mode", isSecret := false },
    { sourcePath := l.configRoot ++ "/tool", repoRelativePath := "tool", isSecret := false },
    { sourcePath := l.configRoot ++ "/theme", repoRelativePath := "theme", isSecret := false },
    { sourcePath := l.configRoot ++ "/plugin", repoRelativePath := "plugin", isSecret := false } ]

/-- Modelled from the spec: `paths.ts` is not under `src/`.  The fixed catalog
of well-known secret paths (spec §4.1: authentication/credential files);
paths.test.ts lines 59-73 observe exactly two such entries. -/
def secretCatalog (l : SyncLocations) : List SyncItem :=
  [ { sourcePath := l.dataDir ++ "/auth.json",
      repoRelativePath := "secrets/auth.json", isSecret := true },
    { sourcePath := l.configRoot ++ "/credentials.json",
      repoRelativePath := "secrets/credentials.json", isSecret := true } ]

/-- Modelled from the spec: `paths.ts` is not under `src/`.  `buildSyncPlan`
(spec §4.1, exercised by paths.test.ts lines 42-74): the regular catalog is
always present; the secret catalog and the `extraSecretPaths` allowlist are
appended only when `includeSecrets` is true — a single gate, not a per-path
opt-out. -/
def buildSyncPlan (config : SyncConfig) (locations : SyncLocations)
    (repoRoot : String) : SyncPlan :=
  if config.includeSecrets then
    { items := regularCatalog locations ++ secretCatalog locations,
      extraSecrets := { allowlist := config.extraSecretPaths } }
  else
    { items := regularCatalog locations, extraSecrets := { allowlist := [] } }

/-- Modelled from the spec: `paths.ts` is not under `src/`.  The repo clone
root: an explicit `localRepoPath` wins, else the default clone root under the
data directory (spec §3). -/
def resolveRepoRoot (config : SyncConfig) (locations : SyncLocations) : String :=
  match config.localRepoPath with
  | some p => p
  | none => locations.defaultRepoRoot

/-- Modelled from the spec: `repo.ts` is not under `src/`.  Canonical repo
identifier for display (spec §3). -/
def resolveRepoIdentifier (config : SyncConfig) : String :=
  match config.repo with
  | some (.ownerName owner name _) => owner ++ "/" ++ name
  | some (.url u _) => u
  | none => ""

/-- Modelled from the spec: `repo.ts` is not under `src/`.  Branch
resolution (spec §4.4): configured branch wins, else the observed current
branch, else a fixed default. -/
def resolveRepoBranch (config : SyncConfig) (observed : Option String) : String :=
  match config.repo with
  | some r =>
    match r.branch with
    | some b => b
    | none => observed.getD "main"
  | none => observed.getD "main"

/-! ### The orchestrator state machine (service.ts) -/

/-- Typed error kinds of the orchestrator (spec §7; service.ts errors.ts
surface). -/
inductive SyncError
  | configMissing
  | commandFailure (msg : String)
  | dirtyRepoConflict (repoRoot : String)
  | secretsPolicyViolation
deriving DecidableEq

/-- Toast variants (service.ts line 350). -/
inductive ToastVariant
  | info
  | success
  | warning
  | error
deriving DecidableEq

/-- The machine-local override overlay document (spec §4.2); its content is
opaque to the orchestrator. -/
structure Overrides where
  entries : List (String × String)
deriving DecidableEq

/-- A partial update of the persisted sync state: fields present in the patch
replace the stored value, absent fields are untouched (service.ts lines
166-169 and 204-206 pass single-field and two-field documents). -/
structure StatePatch where
  lastPull : Option String
  lastPush : Option String
  lastRemoteUpdate : Option String
deriving DecidableEq

/-- The persisted sync state (spec §3). -/
structure SyncState where
  lastPull : Option String
  lastPush : Option String
  lastRemoteUpdate : Option String
deriving DecidableEq

/-- Modelled from the spec: `config.ts` is not under `src/`.  `writeState`
merge semantics per spec §3: each field present in the patch is replaced
wholesale, absent fields keep their previous value; never partially written. -/
def applyPatch (s : SyncState) (p : StatePatch) : SyncState :=
  { lastPull := match p.lastPull with | some v => some v | none => s.lastPull
    lastPush := match p.lastPush with | some v => some v | none => s.lastPush
    lastRemoteUpdate :=
      match p.lastRemoteUpdate with | some v => some v | none => s.lastRemoteUpdate }

/-- Externally visible writes and notifications of one orchestrator flow, in
program order. -/
inductive Effect
  | writeConfig (c : SyncConfig)
  | createRepo (slug : String) (isPrivate : Bool)
  | reconRepoToLocal (plan : SyncPlan) (overrides : Overrides)
  | reconLocalToRepo (plan : SyncPlan) (overrides : Overrides)
  | commit (repoRoot msg : String)
  | pushBranch (repoRoot branch : String)
  | writeState (patch : StatePatch)
  | toast (msg : String) (variant : ToastVariant)
deriving DecidableEq

/-- Replay the state writes of an effect trace over a starting sync state. -/
def applyEffects (s : SyncState) : List Effect → SyncState
  | [] => s
  | Effect.writeState p :: rest => applyEffects (applyPatch s p) rest
  | _ :: rest => applyEffects s rest

/-- True when the trace contains a sync-state write. -/
def hasStateWrite (effs : List Effect) : Bool :=
  effs.any (fun e => match e with | Effect.writeState _ => true | _ => false)

/-- True when the result of a flow is a thrown error. -/
def isErr {α : Type} (r : Except SyncError α) : Bool :=
  match r with
  | .error _ => true
  | .ok _ => false

/-- Environment resolving every external call a service flow makes.  `none`
on an `Option` field models the call throwing. -/
structure FlowEnv where
  /-- Result of `loadSyncConfig`: `none` models a missing configuration. -/
  config : Option SyncConfig
  /-- Whether `ensureRepoCloned` succeeds. -/
  ensureClonedOk : Bool
  /-- Whether the remote repository is private, as observed by
  `ensureRepoPrivate`. -/
  remotePrivate : Bool
  /-- Branch reported by `getRepoStatus`; `none` models the status call
  throwing (service.ts lines 289-300 fall back to the configured branch). -/
  statusBranch : Option String
  /-- Result of the `hasLocalChanges` check made before mutating. -/
  dirtyPre : Bool
  /-- Result of `fetchAndFastForward`: `none` = throws (e.g. divergence),
  `some u` = `{updated: u}`. -/
  fetchResult : Option Bool
  /-- The loaded override overlay (missing file loads as empty, spec §4.2). -/
  overrides : Overrides
  /-- Whether `syncRepoToLocal` succeeds. -/
  reconRepoToLocalOk : Bool
  /-- Whether `syncLocalToRepo` succeeds. -/
  reconLocalToRepoOk : Bool
  /-- Result of the `hasLocalChanges` check made after `syncLocalToRepo`. -/
  dirtyPost : Bool
  /-- Message produced by `generateCommitMessage` (total, see the commit
  model). -/
  commitMsg : String
  /-- Whether `commitAll` succeeds. -/
  commitOk : Bool
  /-- Whether `pushBranch` succeeds. -/
  pushOk : Bool
  /-- Whether `gh repo create` succeeds. -/
  createOk : Bool
  /-- ISO timestamp taken for state writes. -/
  now : String
deriving DecidableEq

/-- Modelled from the spec: `repo.ts` is not under `src/`.
`ensureRepoPrivate` fails with `SecretsPolicyViolation` exactly when the
remote is not private (spec §4.4). -/
def ensureRepoPrivate (remotePrivate : Bool) : Except SyncError Unit :=
  if remotePrivate then .ok () else .error .secretsPolicyViolation

/-- Model of `ensureSecretsPolicy` (service.ts lines 284-287): only checks
privacy when secrets are enabled. -/
def ensureSecretsPolicy (config : SyncConfig) (remotePrivate : Bool) :
    Except SyncError Unit :=
  if config.includeSecrets then ensureRepoPrivate remotePrivate else .ok ()

/-- Model of `resolveBranch` (service.ts lines 289-300): use the observed
branch when repo status is available, otherwise fall back. -/
def resolveBranchModel (config : SyncConfig) (env : FlowEnv) : String :=
  match env.statusBranch with
  | some b => resolveRepoBranch config (some b)
  | none => resolveRepoBranch config none

/-- Model of `pull` (service.ts lines 142-173). -/
def pullFlow (locations : SyncLocations) (env : FlowEnv) :
    Except SyncError String × List Effect :=
  match env.config with
  | none => (.error .configMissing, [])
  | some config =>
    if !env.ensureClonedOk then (.error (.commandFailure "clone failed"), [])
    else
      match ensureSecretsPolicy config env.remotePrivate with
      | .error e => (.error e, [])
      | .ok _ =>
        if env.dirtyPre then
          (.error (.dirtyRepoConflict (resolveRepoRoot config locations)), [])
        else
          match env.fetchResult with
          | none => (.error (.commandFailure "fetch failed"), [])
          | some false => (.ok "Already up to date.", [])
          | some true =>
            let plan := buildSyncPlan config locations (resolveRepoRoot config locations)
            if !env.reconRepoToLocalOk then
              (.error (.commandFailure "apply failed"),
               [Effect.reconRepoToLocal plan env.overrides])
            else
              (.ok "Remote config applied. Restart OpenCode to use new settings.",
               [Effect.reconRepoToLocal plan env.overrides,
                Effect.writeState
                  { lastPull := some env.now, lastPush := none,
                    lastRemoteUpdate := some env.now },
                Effect.toast "Config updated. Restart OpenCode to apply."
                  ToastVariant.info])

/-- Model of `push` (service.ts lines 174-209). -/
def pushFlow (locations : SyncLocations) (env : FlowEnv) :
    Except SyncError String × List Effect :=
  match env.config with
  | none => (.error .configMissing, [])
  | some config =>
    if !env.ensureClonedOk then (.error (.commandFailure "clone failed"), [])
    else
      match ensureSecretsPolicy config env.remotePrivate with
      | .error e => (.error e, [])
      | .ok _ =>
        if env.dirtyPre then
          (.error (.dirtyRepoConflict (resolveRepoRoot config locations)), [])
        else
          let repoRoot := resolveRepoRoot config locations
          let plan := buildSyncPlan config locations repoRoot
          if !env.reconLocalToRepoOk then
            (.error (.commandFailure "apply failed"),
             [Effect.reconLocalToRepo plan env.overrides])
          else if !env.dirtyPost then
            (.ok "No local changes to push.",
             [Effect.reconLocalToRepo plan env.overrides])
          else if !env.commitOk then
            (.error (.commandFailure "commit failed"),
             [Effect.reconLocalToRepo plan env.overrides,
              Effect.commit repoRoot env.commitMsg])
          else if !env.pushOk then
            (.error (.commandFailure "push failed"),
             [Effect.reconLocalToRepo plan env.overrides,
              Effect.commit repoRoot env.commitMsg,
              Effect.pushBranch repoRoot (resolveBranchModel config env)])
          else
            (.ok ("Pushed changes: " ++ env.commitMsg),
             [Effect.reconLocalToRepo plan env.overrides,
              Effect.commit repoRoot env.commitMsg,
              Effect.pushBranch repoRoot (resolveBranchModel config env),
              Effect.writeState
                { lastPull := none, lastPush := some env.now,
                  lastRemoteUpdate := none }])

/-- Model of `runStartup` (service.ts lines 225-270). -/
def runStartup (locations : SyncLocations) (env : FlowEnv) (config : SyncConfig) :
    Except SyncError Unit × List Effect :=
  if !env.ensureClonedOk then (.error (.commandFailure "clone failed"), [])
  else
    match ensureSecretsPolicy config env.remotePrivate with
    | .error e => (.error e, [])
    | .ok _ =>
      let repoRoot := resolveRepoRoot config locations
      if env.dirtyPre then
        (.ok (),
         [Effect.toast
            ("Local sync repo has uncommitted changes in " ++ repoRoot
              ++ ". Resolve before sync.")
            ToastVariant.warning])
      else
        match env.fetchResult with
        | none => (.error (.commandFailure "fetch failed"), [])
        | some true =>
          let plan := buildSyncPlan config locations repoRoot
          if !env.reconRepoToLocalOk then
            (.error (.commandFailure "apply failed"),
             [Effect.reconRepoToLocal plan env.overrides])
          else
            (.ok (),
             [Effect.reconRepoToLocal plan env.overrides,
              Effect.writeState
                { lastPull := some env.now, lastPush := none,
                  lastRemoteUpdate := some env.now },
              Effect.toast "Config updated. Restart OpenCode to apply."
                ToastVariant.info])
        | some false =>
          let plan := buildSyncPlan config locations repoRoot
          if !env.reconLocalToRepoOk then
            (.error (.commandFailure "apply failed"),
             [Effect.reconLocalToRepo plan env.overrides])
          else if !env.dirtyPost then
            (.ok (), [Effect.reconLocalToRepo plan env.overrides])
          else if !env.commitOk then
            (.error (.commandFailure "commit failed"),
             [Effect.reconLocalToRepo plan env.overrides,
              Effect.commit repoRoot env.commitMsg])
          else if !env.pushOk then
            (.error (.commandFailure "push failed"),
             [Effect.reconLocalToRepo plan env.overrides,
              Effect.commit repoRoot env.commitMsg,
              Effect.pushBranch repoRoot (resolveBranchModel config env)])
          else
            (.ok (),
             [Effect.reconLocalToRepo plan env.overrides,
              Effect.commit repoRoot env.commitMsg,
              Effect.pushBranch repoRoot (resolveBranchModel config env),
              Effect.writeState
                { lastPull := none, lastPush := some env.now,
                  lastRemoteUpdate := none }])

/-- Render an orchestrator error the way `formatError` would show it. -/
def formatSyncError : SyncError → String
  | .configMissing => "Missing opencode-sync config. Run /opencode-sync-init to set it up."
  | .commandFailure msg => msg
  | .dirtyRepoConflict repoRoot =>
    "Local sync repo has uncommitted changes. Resolve in " ++ repoRoot ++ "."
  | .secretsPolicyViolation => "Secrets sync requires a private repository."

/-- Model of `startupSync` (service.ts lines 57-68): missing configuration
and any `runStartup` failure degrade to a toast; the flow itself never
throws. -/
def startupSyncFlow (locations : SyncLocations) (env : FlowEnv) : List Effect :=
  match env.config with
  | none =>
    [Effect.toast "Configure opencode-sync with /opencode-sync-init."
       ToastVariant.info]
  | some config =>
    match runStartup locations env config with
    | (.ok _, effs) => effs
    | (.error e, effs) =>
      effs ++ [Effect.toast (formatSyncError e) ToastVariant.error]

/-- Model of `enableSecrets` (service.ts lines 210-221): mutate the in-memory
config, enforce privacy, and only then persist. -/
def enableSecretsFlow (locations : SyncLocations) (env : FlowEnv)
    (extraSecretPaths : Option (List String)) :
    Except SyncError String × List Effect :=
  match env.config with
  | none => (.error .configMissing, [])
  | some config0 =>
    let config1 := { config0 with includeSecrets := true }
    let config :=
      match extraSecretPaths with
      | some xs => { config1 with extraSecretPaths := xs }
      | none => config1
    match ensureRepoPrivate env.remotePrivate with
    | .error e => (.error e, [])
    | .ok _ =>
      (.ok "Secrets sync enabled for this repo.", [Effect.writeConfig config])

/-! ### The init flow and service creation -/

/-- JavaScript truthiness for an optional string option: defined and
non-empty. -/
def truthyStr : Option String → Option String
  | some s => if s = "" then none else some s
  | none => none

/-- Whether `cs` starts with `pat` (character-by-character). -/
def beginsWith : List Char → List Char → Bool
  | _, [] => true
  | [], _ :: _ => false
  | c :: cs, p :: ps => c = p && beginsWith cs ps

/-- Whether `pat` occurs anywhere inside `cs`, the model of
`String.prototype.includes`. -/
def hasSubList (cs pat : List Char) : Bool :=
  match cs with
  | [] => pat.isEmpty
  | _ :: rest => beginsWith cs pat || hasSubList rest pat

/-- Whether `cs` ends with `pat`, the model of `String.prototype.endsWith`. -/
def endsWithList (cs pat : List Char) : Bool :=
  beginsWith cs.reverse pat.reverse

/-- Options accepted by `init` (service.ts lines 31-42). -/
structure InitOptions where
  repo : Option String
  owner : Option String
  name : Option String
  url : Option String
  branch : Option String
  includeSecrets : Option Bool
  create : Bool
  privateOpt : Option Bool
  extraSecretPaths : Option (List String)
  localRepoPath : Option String
deriving DecidableEq

/-- Model of `resolveRepoFromInit` (service.ts lines 312-329): a URL option
wins, then owner+name, then a repo string parsed as URL-like (`://` or
`.git`) or as `owner/name`. -/
def resolveRepoFromInit (o : InitOptions) : Option RepoRef :=
  match truthyStr o.url with
  | some u => some (.url u o.branch)
  | none =>
    match truthyStr o.owner, truthyStr o.name with
    | some owner, some name => some (.ownerName owner name o.branch)
    | _, _ =>
      match truthyStr o.repo with
      | some r =>
        if hasSubList r.data (str "://") || endsWithList r.data (str ".git") then
          some (.url r o.branch)
        else
          match splitOnChar (Char.ofNat 47) r.data with
          | owner :: name :: _ =>
            if owner = [] || name = [] then none
            else some (.ownerName (String.mk owner) (String.mk name) o.branch)
          | _ => none
      | none => none

/-- Model of `buildConfigFromInit` (service.ts lines 302-310). -/
def buildConfigFromInit (o : InitOptions) : SyncConfig :=
  normalizeSyncConfig
    { repo := resolveRepoFromInit o
      includeSecrets := o.includeSecrets.getD false
      extraSecretPaths := o.extraSecretPaths.getD []
      localRepoPath := o.localRepoPath }

/-- Model of `init` (service.ts lines 119-141): build and validate the
config, optionally create the repo, persist the config, ensure the clone, and
only then enforce the secrets policy. -/
def initFlow (locations : SyncLocations) (env : FlowEnv) (o : InitOptions) :
    Except SyncError String × List Effect :=
  let config := buildConfigFromInit o
  match config.repo with
  | none =>
    (.error (.commandFailure "Provide repo info (owner/name or URL) to initialize sync."),
     [])
  | some repo =>
    let createStep : Except SyncError Unit × List Effect :=
      if o.create then
        match repo with
        | .ownerName owner name _ =>
          if env.createOk then
            (.ok (), [Effect.createRepo (owner ++ "/" ++ name) (o.privateOpt.getD true)])
          else
            (.error (.commandFailure "Failed to create repo"),
             [Effect.createRepo (owner ++ "/" ++ name) (o.privateOpt.getD true)])
        | .url _ _ =>
          (.error (.commandFailure "Repo creation requires owner/name."), [])
      else (.ok (), [])
    match createStep with
    | (.error e, effs) => (.error e, effs)
    | (.ok _, effs) =>
      let effs1 := effs ++ [Effect.writeConfig config]
      if !env.ensureClonedOk then
        (.error (.commandFailure "clone failed"), effs1)
      else
        match ensureSecretsPolicy config env.remotePrivate with
        | .error e => (.error e, effs1)
        | .ok _ =>
          (.ok ("opencode-sync configured.\nRepo: " ++ resolveRepoIdentifier config
              ++ "\nBranch: " ++ resolveRepoBranch config none
              ++ "\nLocal repo: " ++ resolveRepoRoot config locations),
           effs1)

/-- The per-service closure state of `createSyncService` (service.ts lines
53-56): the resolved locations are computed once at creation and captured by
every operation. -/
structure SyncServiceModel where
  locations : SyncLocations
deriving DecidableEq

/-- Model of `createSyncService` (service.ts line 54): resolve the locations
from the creation-time environment and capture them. -/
def createSyncService (env : EnvVars) : SyncServiceModel :=
  { locations := resolveSyncLocations env }

/-- A pull invocation on a created service: the flow runs against the
captured locations, while everything else comes from the invocation-time
environment. -/
def servicePull (svc : SyncServiceModel) (env : FlowEnv) :
    Except SyncError String × List Effect :=
  pullFlow svc.locations env

/-! ### Shared sample inputs for witnesses -/

/-- A linux environment with the default configuration root. -/
def sampleEnvVars : EnvVars := { home := "/home/test", opencodeConfigDir := none }

/-- Locations resolved from the sample environment. -/
def sampleLocations : SyncLocations := resolveSyncLocations sampleEnvVars

/-- A configuration without secrets but with a non-empty extra-secrets list. -/
def sampleConfig : SyncConfig :=
  { repo := some (.ownerName "acme" "config" none)
    includeSecrets := false
    extraSecretPaths := ["/home/test/.ssh/id_rsa"]
    localRepoPath := some "/repo" }

/-- The sample configuration with secrets enabled. -/
def sampleSecretConfig : SyncConfig := { sampleConfig with includeSecrets := true }

/-- A flow environment in which every external call succeeds. -/
def baseFlowEnv : FlowEnv :=
  { config := some sampleConfig
    ensureClonedOk := true
    remotePrivate := true
    statusBranch := some "main"
    dirtyPre := false
    fetchResult := some false
    overrides := { entries := [] }
    reconRepoToLocalOk := true
    reconLocalToRepoOk := true
    dirtyPost := false
    commitMsg := "Update agent config"
    commitOk := true
    pushOk := true
    createOk := true
    now := "2026-10-11T00:00:00.000Z" }

/-! ### Helper lemmas -/

/-- When secrets are disabled, or the remote is private, the secrets policy
check passes. -/
theorem ensureSecretsPolicy_ok (c : SyncConfig) (p : Bool)
    (h : c.includeSecrets = true → p = true) :
    ensureSecretsPolicy c p = .ok () := by
  unfold ensureSecretsPolicy ensureRepoPrivate
  cases hi : c.includeSecrets
  · simp
  · simp [h hi]

/-! ### C1 — secrets gate of the sync planner -/

/-- C1: for every SyncConfig with `includeSecrets = false`, `buildSyncPlan`
returns a plan with zero items marked `isSecret = true` and an empty
extra-secrets allowlist, regardless of `extraSecretPaths`. -/
theorem buildSyncPlan_no_secrets_when_disabled (config : SyncConfig)
    (l : SyncLocations) (repoRoot : String)
    (h : config.includeSecrets = false) :
    ((buildSyncPlan config l repoRoot).items.filter (fun i => i.isSecret)).length = 0 ∧
    (buildSyncPlan config l repoRoot).extraSecrets.allowlist = [] := by
  simp [buildSyncPlan, h, regularCatalog]

/-- Witness for C1 at a concrete configuration whose `extraSecretPaths` is
non-empty. -/
theorem buildSyncPlan_no_secrets_when_disabled_witness :
    sampleConfig.includeSecrets = false ∧
    sampleConfig.extraSecretPaths ≠ [] ∧
    (((buildSyncPlan sampleConfig sampleLocations "/repo").items.filter
        (fun i => i.isSecret)).length = 0 ∧
      (buildSyncPlan sampleConfig sampleLocations "/repo").extraSecrets.allowlist = []) :=
  ⟨by decide, by decide,
   buildSyncPlan_no_secrets_when_disabled sampleConfig sampleLocations "/repo" (by decide)⟩

/-! ### C3 — dirty working tree blocks pull/push but not startup -/

/-- C3: when `hasLocalChanges` reports a dirty tree, `pull` and `push` throw a
`DirtyRepoConflict` naming the repo root and record no effect at all, while
`runStartup` succeeds with a single warning toast and `startupSync` emits just
that toast. -/
theorem dirty_blocks_pull_push_not_startup (l : SyncLocations) (env : FlowEnv)
    (c : SyncConfig)
    (hc : env.config = some c) (hcl : env.ensureClonedOk = true)
    (hpol : c.includeSecrets = true → env.remotePrivate = true)
    (hd : env.dirtyPre = true) :
    pullFlow l env = (.error (.dirtyRepoConflict (resolveRepoRoot c l)), []) ∧
    pushFlow l env = (.error (.dirtyRepoConflict (resolveRepoRoot c l)), []) ∧
    runStartup l env c =
      (.ok (),
       [Effect.toast
          ("Local sync repo has uncommitted changes in " ++ resolveRepoRoot c l
            ++ ". Resolve before sync.")
          ToastVariant.warning]) ∧
    startupSyncFlow l env =
      [Effect.toast
         ("Local sync repo has uncommitted changes in " ++ resolveRepoRoot c l
           ++ ". Resolve before sync.")
         ToastVariant.warning] := by
  have hpolicy := ensureSecretsPolicy_ok c env.remotePrivate hpol
  have hrs : runStartup l env c =
      (.ok (),
       [Effect.toast
          ("Local sync repo has uncommitted changes in " ++ resolveRepoRoot c l
            ++ ". Resolve before sync.")
          ToastVariant.warning]) := by
    simp [runStartup, hcl, hpolicy, hd]
  refine ⟨?_, ?_, hrs, ?_⟩
  · simp [pullFlow, hc, hcl, hpolicy, hd]
  · simp [pushFlow, hc, hcl, hpolicy, hd]
  · simp [startupSyncFlow, hc, hrs]

/-- A flow environment whose working tree is dirty. -/
def dirtyEnv : FlowEnv := { baseFlowEnv with dirtyPre := true }

/-- Witness for C3 at a concrete dirty environment. -/
theorem dirty_blocks_pull_push_not_startup_witness :
    (dirtyEnv.config = some sampleConfig ∧ dirtyEnv.ensureClonedOk = true ∧
      (sampleConfig.includeSecrets = true → dirtyEnv.remotePrivate = true) ∧
      dirtyEnv.dirtyPre = true) ∧
    (pullFlow sampleLocations dirtyEnv =
        (.error (.dirtyRepoConflict (resolveRepoRoot sampleConfig sampleLocations)), []) ∧
      pushFlow sampleLocations dirtyEnv =
        (.error (.dirtyRepoConflict (resolveRepoRoot sampleConfig sampleLocations)), []) ∧
      runStartup sampleLocations dirtyEnv sampleConfig =
        (.ok (),
         [Effect.toast
            ("Local sync repo has uncommitted changes in "
              ++ resolveRepoRoot sampleConfig sampleLocations
              ++ ". Resolve before sync.")
            ToastVariant.warning]) ∧
      startupSyncFlow sampleLocations dirtyEnv =
        [Effect.toast
           ("Local sync repo has uncommitted changes in "
             ++ resolveRepoRoot sampleConfig sampleLocations
             ++ ". Resolve before sync.")
           ToastVariant.warning]) :=
  ⟨⟨rfl, rfl, fun _ => rfl, rfl⟩,
   dirty_blocks_pull_push_not_startup sampleLocations dirtyEnv sampleConfig rfl rfl
     (fun _ => rfl) rfl⟩

/-! ### C2 — secrets policy violation blocks the flows -/

/-- Init options enabling secrets against a public remote. -/
def secretInitOpts : InitOptions :=
  { repo := none
    owner := some "acme"
    name := some "cfg"
    url := none
    branch := none
    includeSecrets := some true
    create := false
    privateOpt := none
    extraSecretPaths := none
    localRepoPath := some "/repo" }

/-- A flow environment with secrets enabled and a public remote. -/
def publicRemoteEnv : FlowEnv :=
  { baseFlowEnv with config := some sampleSecretConfig, remotePrivate := false }

/-- Counterexample to C2 as stated: `init` with `includeSecrets = true` and a
public remote does fail with `SecretsPolicyViolation`, but only after it has
already persisted the sync config (service.ts line 130 writes the config
before line 133 checks the secrets policy), so the failure does not occur
before any write. -/
theorem init_persists_config_before_policy_check :
    (initFlow sampleLocations publicRemoteEnv secretInitOpts).1 =
      Except.error SyncError.secretsPolicyViolation ∧
    (initFlow sampleLocations publicRemoteEnv secretInitOpts).2 =
      [Effect.writeConfig (buildConfigFromInit secretInitOpts)] ∧
    (buildConfigFromInit secretInitOpts).includeSecrets = true := by
  refine ⟨rfl, by decide, by decide⟩

/-- C2 (amended): with secrets enabled and a non-private remote,
`enableSecrets`, `pull`, `push` and the startup flow all fail with
`SecretsPolicyViolation` before any write occurs (empty effect trace);
`init` also fails with `SecretsPolicyViolation`, but only after persisting
the configuration. -/
theorem secrets_policy_blocks_flows (l : SyncLocations) (env : FlowEnv)
    (c : SyncConfig) (xs : Option (List String))
    (hc : env.config = some c) (hs : c.includeSecrets = true)
    (hp : env.remotePrivate = false) (hcl : env.ensureClonedOk = true) :
    enableSecretsFlow l env xs = (.error .secretsPolicyViolation, []) ∧
    pullFlow l env = (.error .secretsPolicyViolation, []) ∧
    pushFlow l env = (.error .secretsPolicyViolation, []) ∧
    runStartup l env c = (.error .secretsPolicyViolation, []) ∧
    (∀ o : InitOptions,
      (buildConfigFromInit o).includeSecrets = true →
      (buildConfigFromInit o).repo ≠ none →
      o.create = false →
      initFlow l env o =
        (.error .secretsPolicyViolation,
         [Effect.writeConfig (buildConfigFromInit o)])) := by
  have hpolicy : ensureSecretsPolicy c env.remotePrivate =
      .error .secretsPolicyViolation := by
    simp [ensureSecretsPolicy, ensureRepoPrivate, hs, hp]
  refine ⟨?_, ?_, ?_, ?_, ?_⟩
  · rcases xs with _ | xs <;>
      simp [enableSecretsFlow, hc, ensureRepoPrivate, hp]
  · simp [pullFlow, hc, hcl, hpolicy]
  · simp [pushFlow, hc, hcl, hpolicy]
  · simp [runStartup, hcl, hpolicy]
  · intro o hoi hor hoc
    rcases hrepo : (buildConfigFromInit o).repo with _ | r
    · exact absurd hrepo hor
    · simp [initFlow, hrepo, hoc, hcl, ensureSecretsPolicy, ensureRepoPrivate,
        hoi, hp]

/-- Witness for C2 at a concrete public-remote environment. -/
theorem secrets_policy_blocks_flows_witness :
    (publicRemoteEnv.config = some sampleSecretConfig ∧
      sampleSecretConfig.includeSecrets = true ∧
      publicRemoteEnv.remotePrivate = false ∧
      publicRemoteEnv.ensureClonedOk = true) ∧
    (enableSecretsFlow sampleLocations publicRemoteEnv none =
        (.error .secretsPolicyViolation, []) ∧
      pullFlow sampleLocations publicRemoteEnv =
        (.error .secretsPolicyViolation, []) ∧
      pushFlow sampleLocations publicRemoteEnv =
        (.error .secretsPolicyViolation, []) ∧
      runStartup sampleLocations publicRemoteEnv sampleSecretConfig =
        (.error .secretsPolicyViolation, []) ∧
      (∀ o : InitOptions,
        (buildConfigFromInit o).includeSecrets = true →
        (buildConfigFromInit o).repo ≠ none →
        o.create = false →
        initFlow sampleLocations publicRemoteEnv o =
          (.error .secretsPolicyViolation,
           [Effect.writeConfig (buildConfigFromInit o)]))) :=
  ⟨⟨rfl, rfl, rfl, rfl⟩,
   secrets_policy_blocks_flows sampleLocations publicRemoteEnv sampleSecretConfig
     none rfl rfl rfl rfl⟩

/-! ### C4 — startup with a clean working tree -/

/-- C4: on startup with a clean tree, a fast-forward update reconciles
repo-to-local, persists `lastPull`/`lastRemoteUpdate` and notifies, without
any commit or push in the same run; with no update, it reconciles
local-to-repo, and commits, pushes and persists `lastPush` exactly when that
reconciliation left real working-tree changes. -/
theorem startup_clean_tree_behaviour (l : SyncLocations) (env : FlowEnv)
    (c : SyncConfig)
    (hcl : env.ensureClonedOk = true)
    (hpol : c.includeSecrets = true → env.remotePrivate = true)
    (hd : env.dirtyPre = false) :
    (env.fetchResult = some true → env.reconRepoToLocalOk = true →
      runStartup l env c =
        (.ok (),
         [Effect.reconRepoToLocal
            (buildSyncPlan c l (resolveRepoRoot c l)) env.overrides,
          Effect.writeState
            { lastPull := some env.now, lastPush := none,
              lastRemoteUpdate := some env.now },
          Effect.toast "Config updated. Restart OpenCode to apply."
            ToastVariant.info])) ∧
    (env.fetchResult = some false → env.reconLocalToRepoOk = true →
      env.dirtyPost = false →
      runStartup l env c =
        (.ok (),
         [Effect.reconLocalToRepo
            (buildSyncPlan c l (resolveRepoRoot c l)) env.overrides])) ∧
    (env.fetchResult = some false → env.reconLocalToRepoOk = true →
      env.dirtyPost = true → env.commitOk = true → env.pushOk = true →
      runStartup l env c =
        (.ok (),
         [Effect.reconLocalToRepo
            (buildSyncPlan c l (resolveRepoRoot c l)) env.overrides,
          Effect.commit (resolveRepoRoot c l) env.commitMsg,
          Effect.pushBranch (resolveRepoRoot c l) (resolveBranchModel c env),
          Effect.writeState
            { lastPull := none, lastPush := some env.now,
              lastRemoteUpdate := none }])) := by
  have hpolicy := ensureSecretsPolicy_ok c env.remotePrivate hpol
  refine ⟨?_, ?_, ?_⟩
  · intro hf hr
    simp [runStartup, hcl, hpolicy, hd, hf, hr]
  · intro hf hr hdp
    simp [runStartup, hcl, hpolicy, hd, hf, hr, hdp]
  · intro hf hr hdp hco hpu
    simp [runStartup, hcl, hpolicy, hd, hf, hr, hdp, hco, hpu]

/-- Startup environment in which the fetch reported an update. -/
def updatedEnv : FlowEnv := { baseFlowEnv with fetchResult := some true }

/-- Witness for C4: the updated-fetch branch and both no-update branches at
concrete environments. -/
theorem startup_clean_tree_behaviour_witness :
    (updatedEnv.ensureClonedOk = true ∧ updatedEnv.dirtyPre = false ∧
      updatedEnv.fetchResult = some true ∧ updatedEnv.reconRepoToLocalOk = true) ∧
    runStartup sampleLocations updatedEnv sampleConfig =
      (.ok (),
       [Effect.reconRepoToLocal
          (buildSyncPlan sampleConfig sampleLocations
            (resolveRepoRoot sampleConfig sampleLocations)) updatedEnv.overrides,
        Effect.writeState
          { lastPull := some updatedEnv.now, lastPush := none,
            lastRemoteUpdate := some updatedEnv.now },
        Effect.toast "Config updated. Restart OpenCode to apply."
          ToastVariant.info]) :=
  ⟨⟨rfl, rfl, rfl, rfl⟩,
   (startup_clean_tree_behaviour sampleLocations updatedEnv sampleConfig rfl
      (fun _ => rfl) rfl).1 rfl rfl⟩

/-! ### C5 — no partial sync-state write on failure -/

/-- C5: a failing pull, push or startup run performs no sync-state write at
all; moreover the pull trace contains a state write only after the fetch
reported an update and `syncRepoToLocal` completed, and the push trace only
after `commitAll` and `pushBranch` completed. -/
theorem no_partial_state_on_failure (l : SyncLocations) (env : FlowEnv) :
    (isErr (pullFlow l env).1 = true → hasStateWrite (pullFlow l env).2 = false) ∧
    (hasStateWrite (pullFlow l env).2 = true →
      env.fetchResult = some true ∧ env.reconRepoToLocalOk = true) ∧
    (isErr (pushFlow l env).1 = true → hasStateWrite (pushFlow l env).2 = false) ∧
    (hasStateWrite (pushFlow l env).2 = true →
      env.commitOk = true ∧ env.pushOk = true) ∧
    (∀ c : SyncConfig, isErr (runStartup l env c).1 = true →
      hasStateWrite (runStartup l env c).2 = false) := by
  refine ⟨?_, ?_, ?_, ?_, ?_⟩
  · rcases hcfg : env.config with _ | c
    · simp [pullFlow, hcfg, isErr, hasStateWrite]
    · cases h1 : env.ensureClonedOk <;>
        rcases h2 : ensureSecretsPolicy c env.remotePrivate with e | u <;>
        cases h3 : env.dirtyPre <;>
        cases h5 : env.reconRepoToLocalOk <;>
        rcases h4 : env.fetchResult with _ | (_ | _) <;>
        simp_all [pullFlow, isErr, hasStateWrite]
  · rcases hcfg : env.config with _ | c
    · simp [pullFlow, hcfg, hasStateWrite]
    · cases h1 : env.ensureClonedOk <;>
        rcases h2 : ensureSecretsPolicy c env.remotePrivate with e | u <;>
        cases h3 : env.dirtyPre <;>
        cases h5 : env.reconRepoToLocalOk <;>
        rcases h4 : env.fetchResult with _ | (_ | _) <;>
        simp_all [pullFlow, hasStateWrite]
  · rcases hcfg : env.config with _ | c
    · simp [pushFlow, hcfg, isErr, hasStateWrite]
    · cases h1 : env.ensureClonedOk <;>
        rcases h2 : ensureSecretsPolicy c env.remotePrivate with e | u <;>
        cases h3 : env.dirtyPre <;>
        cases h5 : env.reconLocalToRepoOk <;>
        cases h6 : env.dirtyPost <;>
        cases h7 : env.commitOk <;>
        cases h8 : env.pushOk <;>
        simp_all [pushFlow, isErr, hasStateWrite]
  · rcases hcfg : env.config with _ | c
    · simp [pushFlow, hcfg, hasStateWrite]
    · cases h1 : env.ensureClonedOk <;>
        rcases h2 : ensureSecretsPolicy c env.remotePrivate with e | u <;>
        cases h3 : env.dirtyPre <;>
        cases h5 : env.reconLocalToRepoOk <;>
        cases h6 : env.dirtyPost <;>
        cases h7 : env.commitOk <;>
        cases h8 : env.pushOk <;>
        simp_all [pushFlow, hasStateWrite]
  · intro c
    cases h1 : env.ensureClonedOk
    · simp [runStartup, h1, isErr, hasStateWrite]
    · rcases h2 : ensureSecretsPolicy c env.remotePrivate with e | u
      · simp [runStartup, h1, h2, isErr, hasStateWrite]
      · cases h3 : env.dirtyPre
        · rcases h4 : env.fetchResult with _ | (_ | _)
          · simp [runStartup, h1, h2, h3, h4, isErr, hasStateWrite]
          · cases h5 : env.reconLocalToRepoOk
            · simp [runStartup, h1, h2, h3, h4, h5, isErr, hasStateWrite]
            · cases h6 : env.dirtyPost
              · simp [runStartup, h1, h2, h3, h4, h5, h6, isErr, hasStateWrite]
              · cases h7 : env.commitOk
                · simp [runStartup, h1, h2, h3, h4, h5, h6, h7, isErr,
                    hasStateWrite]
                · cases h8 : env.pushOk <;>
                    simp [runStartup, h1, h2, h3, h4, h5, h6, h7, h8, isErr,
                      hasStateWrite]
          · cases h5 : env.reconRepoToLocalOk <;>
              simp [runStartup, h1, h2, h3, h4, h5, isErr, hasStateWrite]
        · simp [runStartup, h1, h2, h3, isErr, hasStateWrite]

/-- Environment whose reconciliation steps fail in both directions. -/
def reconFailEnv : FlowEnv :=
  { baseFlowEnv with
      fetchResult := some true
      reconRepoToLocalOk := false
      reconLocalToRepoOk := false
      dirtyPost := true }

/-- Witness for C5: with both reconciliations failing, pull, push and startup
all error and none of their traces contains a state write. -/
theorem no_partial_state_on_failure_witness :
    (isErr (pullFlow sampleLocations reconFailEnv).1 = true ∧
      isErr (pushFlow sampleLocations reconFailEnv).1 = true ∧
      isErr (runStartup sampleLocations reconFailEnv sampleConfig).1 = true) ∧
    (hasStateWrite (pullFlow sampleLocations reconFailEnv).2 = false ∧
      hasStateWrite (pushFlow sampleLocations reconFailEnv).2 = false ∧
      hasStateWrite (runStartup sampleLocations reconFailEnv sampleConfig).2 = false) :=
  ⟨⟨by decide, by decide, by decide⟩,
   ⟨(no_partial_state_on_failure sampleLocations reconFailEnv).1 (by decide),
    (no_partial_state_on_failure sampleLocations reconFailEnv).2.2.1 (by decide),
    (no_partial_state_on_failure sampleLocations reconFailEnv).2.2.2.2 sampleConfig
      (by decide)⟩⟩

/-! ### C6 — state fields are replaced wholesale -/

/-- C6: a successful push leaves `lastPull` and `lastRemoteUpdate` untouched
and replaces only `lastPush`; a successful updating pull replaces `lastPull`
and `lastRemoteUpdate` and leaves `lastPush` untouched. -/
theorem state_fields_replaced_wholesale (l : SyncLocations) (env : FlowEnv)
    (s : SyncState) (c : SyncConfig)
    (hc : env.config = some c) (hcl : env.ensureClonedOk = true)
    (hpol : c.includeSecrets = true → env.remotePrivate = true)
    (hd : env.dirtyPre = false) :
    (env.reconLocalToRepoOk = true → env.dirtyPost = true →
      env.commitOk = true → env.pushOk = true →
      applyEffects s (pushFlow l env).2 =
        { lastPull := s.lastPull, lastPush := some env.now,
          lastRemoteUpdate := s.lastRemoteUpdate }) ∧
    (env.fetchResult = some true → env.reconRepoToLocalOk = true →
      applyEffects s (pullFlow l env).2 =
        { lastPull := some env.now, lastPush := s.lastPush,
          lastRemoteUpdate := some env.now }) := by
  have hpolicy := ensureSecretsPolicy_ok c env.remotePrivate hpol
  constructor
  · intro hr hdp hco hpu
    simp [pushFlow, hc, hcl, hpolicy, hd, hr, hdp, hco, hpu,
      applyEffects, applyPatch]
  · intro hf hr
    simp [pullFlow, hc, hcl, hpolicy, hd, hf, hr, applyEffects, applyPatch]

/-- Environment in which a push goes through end to end. -/
def pushSuccessEnv : FlowEnv := { baseFlowEnv with dirtyPost := true }

/-- A populated sync state used to observe the frame effect. -/
def sampleState : SyncState :=
  { lastPull := some "2026-01-01T00:00:00.000Z"
    lastPush := some "2026-02-02T00:00:00.000Z"
    lastRemoteUpdate := some "2026-03-03T00:00:00.000Z" }

/-- Witness for C6: a successful push at a concrete state replaces only
`lastPush`; a successful pull replaces only `lastPull`/`lastRemoteUpdate`. -/
theorem state_fields_replaced_wholesale_witness :
    (pushSuccessEnv.config = some sampleConfig ∧
      pushSuccessEnv.dirtyPre = false ∧ pushSuccessEnv.dirtyPost = true ∧
      updatedEnv.fetchResult = some true) ∧
    (applyEffects sampleState (pushFlow sampleLocations pushSuccessEnv).2 =
        { lastPull := sampleState.lastPull, lastPush := some pushSuccessEnv.now,
          lastRemoteUpdate := sampleState.lastRemoteUpdate } ∧
      applyEffects sampleState (pullFlow sampleLocations updatedEnv).2 =
        { lastPull := some updatedEnv.now, lastPush := sampleState.lastPush,
          lastRemoteUpdate := some updatedEnv.now }) :=
  ⟨⟨rfl, rfl, rfl, rfl⟩,
   ⟨(state_fields_replaced_wholesale sampleLocations pushSuccessEnv sampleState
        sampleConfig rfl rfl (fun _ => rfl) rfl).1 rfl rfl rfl rfl,
    (state_fields_replaced_wholesale sampleLocations updatedEnv sampleState
        sampleConfig rfl rfl (fun _ => rfl) rfl).2 rfl rfl⟩⟩

/-! ### Lemmas about the string sanitizer -/

/-- Dropping a run from the right never lengthens the list. -/
theorem length_dropRightWhile_le (p : Char → Bool) (cs : List Char) :
    (dropRightWhile p cs).length ≤ cs.length := by
  unfold dropRightWhile
  calc (cs.reverse.dropWhile p).reverse.length
      = (cs.reverse.dropWhile p).length := List.length_reverse _
    _ ≤ cs.reverse.length := (List.dropWhile_sublist _).length_le
    _ = cs.length := List.length_reverse _

/-- Members of the right-trimmed list are members of the original. -/
theorem mem_of_mem_dropRightWhile {p : Char → Bool} {cs : List Char} {c : Char}
    (h : c ∈ dropRightWhile p cs) : c ∈ cs := by
  unfold dropRightWhile at h
  rw [List.mem_reverse] at h
  exact List.mem_reverse.mp ((List.dropWhile_sublist _).mem h)

/-- Trimming never lengthens the list. -/
theorem length_jsTrim_le (cs : List Char) : (jsTrim cs).length ≤ cs.length :=
  le_trans (length_dropRightWhile_le _ _) (List.dropWhile_sublist _).length_le

/-- Members of the trimmed list are members of the original. -/
theorem mem_of_mem_jsTrim {cs : List Char} {c : Char} (h : c ∈ jsTrim cs) :
    c ∈ cs :=
  (List.dropWhile_sublist _).mem (mem_of_mem_dropRightWhile h)

/-- The trimmed, quote-stripped first line computed by `sanitizeMessage`
before the length check (commit.ts lines 80-81). -/
def sanitizeCore (message : List Char) : List Char :=
  jsTrim (dropRightWhile isQuoteChar
    ((jsTrim (message.takeWhile (fun c => c ≠ Char.ofNat 10))).dropWhile isQuoteChar))

/-- Unfolding `sanitizeMessage` through the shared core term. -/
theorem sanitizeMessage_eq_core (message : List Char) :
    sanitizeMessage message =
      (if sanitizeCore message = [] then []
       else if (sanitizeCore message).length ≤ 72 then sanitizeCore message
       else jsTrim ((sanitizeCore message).take 72)) := rfl

/-- Every character of the sanitizer core comes from the first line of the
input. -/
theorem mem_sanitizeCore {m : List Char} {c : Char} (h : c ∈ sanitizeCore m) :
    c ∈ m.takeWhile (fun x => x ≠ Char.ofNat 10) :=
  mem_of_mem_jsTrim
    ((List.dropWhile_sublist _).mem
      (mem_of_mem_dropRightWhile (mem_of_mem_jsTrim h)))

/-- The sanitized message never exceeds 72 characters. -/
theorem sanitizeMessage_length_le (m : List Char) :
    (sanitizeMessage m).length ≤ 72 := by
  rw [sanitizeMessage_eq_core]
  by_cases h0 : sanitizeCore m = []
  · simp [h0]
  · by_cases h1 : (sanitizeCore m).length ≤ 72
    · simp [h0, h1]
    · simp only [h0, h1, if_neg, if_false, ite_false]
      calc (jsTrim ((sanitizeCore m).take 72)).length
          ≤ ((sanitizeCore m).take 72).length := length_jsTrim_le _
        _ ≤ 72 := by simp [List.length_take]

/-- The sanitized message contains no newline: it is a single line. -/
theorem sanitizeMessage_no_newline (m : List Char) :
    Char.ofNat 10 ∉ sanitizeMessage m := by
  intro hmem
  rw [sanitizeMessage_eq_core] at hmem
  have hin : Char.ofNat 10 ∈ m.takeWhile (fun x => x ≠ Char.ofNat 10) := by
    by_cases h0 : sanitizeCore m = []
    · simp [h0] at hmem
    · by_cases h1 : (sanitizeCore m).length ≤ 72
      · rw [if_neg h0, if_pos h1] at hmem
        exact mem_sanitizeCore hmem
      · rw [if_neg h0, if_neg h1] at hmem
        exact mem_sanitizeCore ((List.take_sublist _ _).mem (mem_of_mem_jsTrim hmem))
  have hprop := List.mem_takeWhile_imp hin
  simp at hprop

/-! ### Characterisation of the commit-message generator -/

/-- The generator either returns the fallback or the sanitized model
response, the latter only when every step of the exchange succeeded with a
non-empty result. -/
theorem generateCommitMessage_spec (env : CommitEnv) (d : JSDate) :
    (generateCommitMessage env d).1 = fallbackMessage d ∨
    (getDiffSummary env ≠ [] ∧ resolveSmallModel env ≠ none ∧
      ∃ id parts msg, env.sessionCreate = some (some id) ∧ id ≠ "" ∧
        env.promptParts = some parts ∧ extractMessage parts = some msg ∧
        msg ≠ [] ∧ sanitizeMessage msg ≠ [] ∧
        (generateCommitMessage env d).1 = sanitizeMessage msg) := by
  unfold generateCommitMessage
  by_cases h1 : getDiffSummary env = []
  · left; simp [h1]
  · rcases h2 : resolveSmallModel env with _ | mr
    · left; simp [h1, h2]
    · rcases h3 : env.sessionCreate with _ | (_ | id)
      · left; simp [h1, h2, h3]
      · left; simp [h1, h2, h3]
      · by_cases h4 : id = ""
        · left; simp [h1, h2, h3, h4]
        · rcases h5 : env.promptParts with _ | parts
          · left; simp [h1, h2, h3, h4, h5]
          · rcases h6 : extractMessage parts with _ | msg
            · left; simp [h1, h2, h3, h4, h5, h6]
            · by_cases h7 : msg = []
              · left; simp [h1, h2, h3, h4, h5, h6, h7]
              · by_cases h8 : sanitizeMessage msg = []
                · left; simp [h1, h2, h3, h4, h5, h6, h7, h8]
                · right
                  refine ⟨h1, by simp [h2], id, parts, msg, rfl, h4, rfl, h6,
                    h7, h8, ?_⟩
                  simp [h1, h2, h3, h4, h5, h6, h7, h8]

/-! ### C7 — totality of the commit-message generator -/

/-- C7: on every failure path (empty diff summary, unresolvable model,
session-creation failure or missing id, prompt failure, unusable or empty
response, empty sanitized message) the generator returns the deterministic
fallback — the model is a total function, mirroring the catch-all in
commit.ts lines 54-55. -/
theorem generateCommitMessage_total_fallback (env : CommitEnv) (d : JSDate)
    (h : getDiffSummary env = [] ∨ resolveSmallModel env = none ∨
         env.sessionCreate = none ∨ env.sessionCreate = some none ∨
         env.sessionCreate = some (some "") ∨ env.promptParts = none ∨
         (∃ parts, env.promptParts = some parts ∧ extractMessage parts = none) ∨
         (∃ parts msg, env.promptParts = some parts ∧
            extractMessage parts = some msg ∧ sanitizeMessage msg = [])) :
    (generateCommitMessage env d).1 = fallbackMessage d := by
  rcases generateCommitMessage_spec env d with hok |
    ⟨hd2, hm2, id, parts, msg, h3, h4, h5, h6, h7, h8, hres⟩
  · exact hok
  · exfalso
    rcases h with h | h | h | h | h | h | ⟨p2, hp2, he2⟩ | ⟨p2, m2, hp2, he2, hs2⟩ <;>
      simp_all

/-- An environment in which `session.create` throws. -/
def fallbackEnv : CommitEnv :=
  { nameStatus := some (str "M opencode.jsonc")
    stat := some (str "1 file changed")
    configGet := some (some { small_model := some "anthropic/claude-haiku", model := none })
    sessionCreate := none
    promptParts := none
    deleteOk := true }

/-- The date used by the commit-message witnesses. -/
def sampleDate : JSDate := { fullYear := 2026, monthIndex := 9, dayOfMonth := 11 }

/-- Witness for C7: a failed session creation yields exactly the
`Sync OpenCode config (YYYY-MM-DD)` fallback. -/
theorem generateCommitMessage_total_fallback_witness :
    fallbackEnv.sessionCreate = none ∧
    (generateCommitMessage fallbackEnv sampleDate).1 = fallbackMessage sampleDate ∧
    fallbackMessage sampleDate = str "Sync OpenCode config (2026-10-11)" :=
  ⟨rfl,
   generateCommitMessage_total_fallback fallbackEnv sampleDate
     (Or.inr (Or.inr (Or.inl rfl))),
   by decide⟩

/-! ### C8 — the session is released exactly once -/

/-- C8: whenever a session id was obtained, the event trace contains exactly
one delete for that id — also when the prompt call or the extraction failed —
and the outcome of the delete call never changes the returned message. -/
theorem session_cleanup_exactly_once (env : CommitEnv) (d : JSDate) (id : String)
    (hc : env.sessionCreate = some (some id)) (hid : id ≠ "")
    (hdiff : getDiffSummary env ≠ []) (hmodel : resolveSmallModel env ≠ none) :
    ((generateCommitMessage env d).2.countP
        (fun e => match e with
          | CEvent.sessionDelete i _ => i == id
          | _ => false)) = 1 ∧
    (∀ b : Bool,
      (generateCommitMessage { env with deleteOk := b } d).1 =
        (generateCommitMessage env d).1) := by
  rcases hm : resolveSmallModel env with _ | mr
  · exact absurd hm hmodel
  constructor
  · unfold generateCommitMessage
    simp [hdiff, hm, hc, hid, List.countP_cons]
  · intro b
    have hd2 : getDiffSummary { env with deleteOk := b } = getDiffSummary env := rfl
    have hm2 : resolveSmallModel { env with deleteOk := b } =
        resolveSmallModel env := rfl
    have hs2 : ({ env with deleteOk := b } : CommitEnv).sessionCreate =
        env.sessionCreate := rfl
    have hp2 : ({ env with deleteOk := b } : CommitEnv).promptParts =
        env.promptParts := rfl
    unfold generateCommitMessage
    rw [hd2, hm2, hs2, hp2]
    simp [hdiff, hm, hc, hid]

/-- An environment in which the prompt call throws after the session was
created. -/
def promptThrowsEnv : CommitEnv :=
  { fallbackEnv with sessionCreate := some (some "sess"), promptParts := none }

/-- Witness for C8: the prompt throws, yet the delete for the obtained id
appears exactly once, and the message is unchanged by a failing delete. -/
theorem session_cleanup_exactly_once_witness :
    (promptThrowsEnv.sessionCreate = some (some "sess") ∧
      ("sess" : String) ≠ "" ∧ getDiffSummary promptThrowsEnv ≠ [] ∧
      resolveSmallModel promptThrowsEnv ≠ none) ∧
    (((generateCommitMessage promptThrowsEnv sampleDate).2.countP
        (fun e => match e with
          | CEvent.sessionDelete i _ => i == "sess"
          | _ => false)) = 1 ∧
      (generateCommitMessage { promptThrowsEnv with deleteOk := false }
          sampleDate).1 =
        (generateCommitMessage promptThrowsEnv sampleDate).1) :=
  ⟨⟨rfl, by decide, by decide, by decide⟩,
   ⟨(session_cleanup_exactly_once promptThrowsEnv sampleDate "sess" rfl
       (by decide) (by decide) (by decide)).1,
    (session_cleanup_exactly_once promptThrowsEnv sampleDate "sess" rfl
       (by decide) (by decide) (by decide)).2 false⟩⟩

/-! ### C10 — single-line, 72-character sanitisation in the core -/

/-- C10: the sanitizer output is always a single line of at most 72
characters, and on a successful exchange the generator returns exactly the
sanitized response — or the fallback when sanitisation yields the empty
string. -/
theorem commit_message_single_line_truncated (m : List Char) (env : CommitEnv)
    (d : JSDate) (id : String) (parts : List MsgPart) (msg : List Char)
    (hc : env.sessionCreate = some (some id)) (hid : id ≠ "")
    (hdiff : getDiffSummary env ≠ []) (hmodel : resolveSmallModel env ≠ none)
    (hp : env.promptParts = some parts) (he : extractMessage parts = some msg)
    (hm : msg ≠ []) :
    (sanitizeMessage m).length ≤ 72 ∧
    Char.ofNat 10 ∉ sanitizeMessage m ∧
    (generateCommitMessage env d).1 =
      (if sanitizeMessage msg = [] then fallbackMessage d
       else sanitizeMessage msg) := by
  refine ⟨sanitizeMessage_length_le m, sanitizeMessage_no_newline m, ?_⟩
  rcases hm2 : resolveSmallModel env with _ | mr
  · exact absurd hm2 hmodel
  unfold generateCommitMessage
  simp [hdiff, hm2, hc, hid, hp, he, hm]

/-- A response part holding a quoted single-line commit message. -/
def quotedPart : MsgPart :=
  { type := str "text"
    text := some (str " \"Sync agent and theme config\" ") }

/-- An environment in which the model answers with a quoted message. -/
def quotedResponseEnv : CommitEnv :=
  { fallbackEnv with
      sessionCreate := some (some "sess")
      promptParts := some [quotedPart] }

/-- Witness for C10: the quoted response is stripped and returned as the
commit message. -/
theorem commit_message_single_line_truncated_witness :
    (quotedResponseEnv.sessionCreate = some (some "sess") ∧
      extractMessage [quotedPart] =
        some (str "\"Sync agent and theme config\"")) ∧
    ((sanitizeMessage (str "line one\nline two")).length ≤ 72 ∧
      Char.ofNat 10 ∉ sanitizeMessage (str "line one\nline two") ∧
      (generateCommitMessage quotedResponseEnv sampleDate).1 =
        (if sanitizeMessage (str "\"Sync agent and theme config\"") = []
         then fallbackMessage sampleDate
         else sanitizeMessage (str "\"Sync agent and theme config\""))) ∧
    sanitizeMessage (str "\"Sync agent and theme config\"") =
      str "Sync agent and theme config" :=
  ⟨⟨rfl, by decide⟩,
   commit_message_single_line_truncated (str "line one\nline two")
     quotedResponseEnv sampleDate "sess" [quotedPart]
     (str "\"Sync agent and theme config\"")
     rfl (by decide) (by decide) (by decide) rfl (by decide) (by decide),
   by decide⟩

/-! ### C9 — plan freshness versus cached locations -/

/-- The environment at service creation time (default config root). -/
def envAtCreate : EnvVars := { home := "/home/test", opencodeConfigDir := none }

/-- The environment at the time of a later operation, after the user set
`OPENCODE_CONFIG_DIR`. -/
def envAtPull : EnvVars :=
  { home := "/home/test", opencodeConfigDir := some "/custom/opencode" }

/-- Counterexample to C9 as stated: `createSyncService` (service.ts line 54)
resolves `SyncLocations` once at service creation and every operation of that
service reuses the captured value, so an operation running after an
environment edit does not use freshly resolved locations — the locations it
uses differ from what resolving the current environment would give. -/
theorem locations_cached_across_invocations :
    (createSyncService envAtCreate).locations ≠ resolveSyncLocations envAtPull ∧
    servicePull (createSyncService envAtCreate) updatedEnv =
      pullFlow (resolveSyncLocations envAtCreate) updatedEnv ∧
    buildSyncPlan sampleConfig (createSyncService envAtCreate).locations "/repo" ≠
      buildSyncPlan sampleConfig (resolveSyncLocations envAtPull) "/repo" :=
  ⟨by decide, rfl, by decide⟩

/-- C9 (amended): the `SyncPlan` is recomputed on every operation from the
operation-time configuration, but `SyncLocations` is resolved once at service
creation (from the creation-time environment) and reused by every operation
of that service. -/
theorem plan_fresh_locations_cached (e : EnvVars) (env : FlowEnv)
    (c : SyncConfig)
    (hc : env.config = some c) (hcl : env.ensureClonedOk = true)
    (hpol : c.includeSecrets = true → env.remotePrivate = true)
    (hd : env.dirtyPre = false) (hf : env.fetchResult = some true)
    (hr : env.reconRepoToLocalOk = true) :
    (createSyncService e).locations = resolveSyncLocations e ∧
    Effect.reconRepoToLocal
        (buildSyncPlan c (resolveSyncLocations e)
          (resolveRepoRoot c (resolveSyncLocations e))) env.overrides
      ∈ (servicePull (createSyncService e) env).2 := by
  have hpolicy := ensureSecretsPolicy_ok c env.remotePrivate hpol
  refine ⟨rfl, ?_⟩
  simp [servicePull, createSyncService, pullFlow, hc, hcl, hpolicy, hd, hf, hr]

/-- Witness for C9 at a concrete service and operation environment. -/
theorem plan_fresh_locations_cached_witness :
    (updatedEnv.config = some sampleConfig ∧ updatedEnv.dirtyPre = false ∧
      updatedEnv.fetchResult = some true) ∧
    ((createSyncService envAtCreate).locations =
        resolveSyncLocations envAtCreate ∧
      Effect.reconRepoToLocal
          (buildSyncPlan sampleConfig (resolveSyncLocations envAtCreate)
            (resolveRepoRoot sampleConfig (resolveSyncLocations envAtCreate)))
          updatedEnv.overrides
        ∈ (servicePull (createSyncService envAtCreate) updatedEnv).2) :=
  ⟨⟨rfl, rfl, rfl⟩,
   plan_fresh_locations_cached envAtCreate updatedEnv sampleConfig rfl rfl
     (fun _ => rfl) rfl rfl rfl⟩

end OpencodeSync
